import Mathlib

/-!
Shallow embedding of the min-cut orchestration implemented in `mincut.py`
(class `MinCutFinder` and the module-level `find_min_cut`).  The external
Neo4j/GDS engine is modelled as an oracle (`Engine`) recording the responses
it gives to the queries the code issues; every embedded method returns the
Python-level result (`Except PyError α`) together with the sequence of engine
calls it performed, so that resource (projection) lifetime and phase ordering
can be stated and proved.
-/

set_option maxHeartbeats 1000000

namespace MinCut

/-- Graph node as stored by the engine: an element id and a list of labels. -/
structure Node where
  id : String
  labels : List String
deriving DecidableEq, Repr

/-- Graph relationship: element id, source and target node element ids, and a
relationship type. -/
structure Edge where
  eid : String
  src : String
  tgt : String
  typ : String
deriving DecidableEq, Repr

/-- The database graph held by the engine. -/
structure Graph where
  nodes : List Node
  edges : List Edge
deriving DecidableEq, Repr

/-- Engine path object; the code only reads `path.relationships`
(mincut.py line 242). -/
structure GPath where
  relationships : List Edge
deriving DecidableEq, Repr

/-- Python-level exceptions the embedded code can raise or propagate. -/
inductive PyError where
  | attributeError (msg : String)
  | valueError (msg : String)
  | neo4jError (msg : String)
  | unboundLocalError (msg : String)
deriving DecidableEq, Repr

deriving instance DecidableEq for Except

/-- Python value passed as a node id to the module-level entry point: the code
calls `.strip()` on it, which only strings support. -/
inductive PyValue where
  | str (s : String)
  | int (n : Int)
deriving DecidableEq, Repr

/-- Executable model of Python `str.strip()` with no arguments: removes
leading and trailing whitespace from the string. -/
def pyTrim (s : String) : String :=
  ((((s.data.dropWhile Char.isWhitespace).reverse).dropWhile
    Char.isWhitespace).reverse).asString

/-- Embeds the Python expression `x.strip()` (mincut.py lines 108-109): strings
are stripped of surrounding whitespace, any other value raises
`AttributeError`. -/
def pyStrip : PyValue → Except PyError String
  | .str s => .ok (pyTrim s)
  | .int _ => .error (.attributeError "int object has no attribute strip")

/-- One call issued to the external engine, in program order. -/
inductive EngineCall where
  | connect
  | getElementId
  | expandPaths (rel_pattern : String) (label_pattern : String)
  | createProjection (name : String)
  | wcc (name : String)
  | readComponent (node_id : String)
  | cutQuery (batch : List String)
  | dropProjection (name : String)
  | closeDriver
deriving DecidableEq, Repr

/-- Oracle for the external Neo4j/GDS engine: the responses it returns to the
queries issued during one invocation. `componentOf` is the `componentId` node
property visible through `gds.util.nodeProperty` after WCC has mutated the
projection (`none` models the Cypher `null` for a node absent from the
projection). -/
structure Engine where
  graph : Graph
  expandResult : Except PyError (List GPath)
  projectResult : Except PyError Unit
  wccResult : Except PyError Nat
  componentOf : String → Option Int
  elementIdFromId : PyValue → String

/-- Embeds `MinCutFinder._find_edge_disjoint_paths` (mincut.py lines 171-230).
The traversal pattern strings are built exactly as in the source — an empty
type or label list yields the empty pattern, which the engine treats as
unrestricted — and the engine answers with `expandResult`. -/
def find_edge_disjoint_paths (eng : Engine) (_start_node_id _end_node_id : String)
    (relationship_types node_labels : List String) (_max_path_length : Nat) :
    Except PyError (List GPath) × List EngineCall :=
  let rel_pattern := if relationship_types.isEmpty then ""
    else String.intercalate "|" relationship_types
  let label_pattern := if node_labels.isEmpty then ""
    else String.intercalate "|" node_labels
  (eng.expandResult, [.expandPaths rel_pattern label_pattern])

/-- Embeds `MinCutFinder._extract_relationships_from_paths` (lines 232-246):
the Python set of `rel.element_id` over all path relationships, modelled as a
deduplicated list. -/
def extract_relationships_from_paths (paths : List GPath) : List String :=
  ((paths.map (fun p => p.relationships.map (fun r => r.eid))).flatten).dedup

/-- Embeds `MinCutFinder.get_node_condition` (lines 248-249): the Cypher
disjunction `var:LABEL1 OR var:LABEL2 OR ...`; an empty label list produces
the empty string. -/
def get_node_condition (var : String) (node_labels : List String) : String :=
  String.intercalate " OR " (node_labels.map (fun label => var ++ ":" ++ label))

/-- Embeds the `rel_conditions` / `rel_type_condition` build of
`_create_gds_projection_without_paths` (lines 279-283); the quote characters
around the type name are elided.  Returns `none` when `relationship_types` is
empty: the Python local is then never assigned, so the later f-string that
references it (line 286) raises `UnboundLocalError`. -/
def rel_type_condition (relationship_types : List String) : Option String :=
  if relationship_types.isEmpty then none
  else some (String.intercalate " OR "
    (relationship_types.map (fun t => "type(r) = " ++ t)))

/-- Embeds `MinCutFinder._drop_gds_projection` (lines 349-365): best effort —
a `Neo4jError` raised by the engine is caught and logged, never re-raised. -/
def drop_gds_projection (projection_name : String) : Unit × List EngineCall :=
  ((), [.dropProjection projection_name])

/-- Embeds `MinCutFinder._create_gds_projection_without_paths` (lines 252-316).
First unconditionally drops any prior projection of the same name (line 273).
With an empty `relationship_types` list the local `rel_type_condition` is never
assigned and building `project_query` (line 286) raises `UnboundLocalError`
before any query is sent.  With an empty `node_labels` list `get_node_condition`
yields the empty string, the WHERE clause of the sent query contains an empty
parenthesised condition, and the engine rejects the malformed Cypher.
Otherwise the engine materialises the projection and the name is returned. -/
def create_gds_projection_without_paths (eng : Engine)
    (_path_relationships : List String)
    (relationship_types node_labels : List String) :
    Except PyError String × List EngineCall :=
  let projection_name := "min_cut_projection"
  let t0 := (drop_gds_projection projection_name).snd
  match rel_type_condition relationship_types with
  | none =>
    (.error (.unboundLocalError "cannot access local variable rel_type_condition"), t0)
  | some _ =>
    if (get_node_condition "a" node_labels).isEmpty then
      (.error (.neo4jError "SyntaxError: Invalid input )"),
       t0 ++ [.createProjection projection_name])
    else
      match eng.projectResult with
      | .error e => (.error e, t0 ++ [.createProjection projection_name])
      | .ok _ => (.ok projection_name, t0 ++ [.createProjection projection_name])

/-- Embeds `MinCutFinder._run_wcc_algorithm` (lines 318-346): runs WCC in
mutate mode; if the reported `componentCount` is not greater than 1, a
`ValueError` is raised. -/
def run_wcc_algorithm (eng : Engine) (projection_name : String) :
    Except PyError Unit × List EngineCall :=
  match eng.wccResult with
  | .error e => (.error e, [.wcc projection_name])
  | .ok component_count =>
    if ¬ component_count > 1 then
      (.error (.valueError "No min-cut exists between the specified nodes"),
       [.wcc projection_name])
    else
      (.ok (), [.wcc projection_name])

/-- Embeds `MinCutFinder._get_component_id` (lines 411-428): reads the
`componentId` node property through the projection; a Cypher `null` (node not
in the projection) becomes `none`. -/
def get_component_id (eng : Engine) (node_id : String) (_projection_name : String) :
    Option Int × List EngineCall :=
  (eng.componentOf node_id, [.readComponent node_id])

/-- Cut-edge descriptor accumulated by `_identify_min_cut_relationships`
(lines 493-497). -/
structure CutRecord where
  id : String
  source : String
  target : String
deriving DecidableEq, Repr

/-- Record built from one result row of the batched cut query (line 479). -/
def toCutRecord (r : Edge) : CutRecord :=
  { id := r.eid, source := r.src, target := r.tgt }

/-- Component test of the batched cut query (lines 472-480): both endpoint
component ids must lie in the pair of the start and end components and must
differ; a `null` property (endpoint absent from the projection) fails every
comparison, filtering the row out. -/
def crossesComponents (eng : Engine) (start_component end_component : Int)
    (r : Edge) : Bool :=
  match eng.componentOf r.src, eng.componentOf r.tgt with
  | some ca, some cb =>
    (ca == start_component || ca == end_component) &&
    (cb == start_component || cb == end_component) &&
    ca != cb
  | _, _ => false

/-- Result rows of one batched cut query (lines 472-491): the edges of the
database whose element id is in the batch and whose endpoints cross the two
components. -/
def cutQueryBatch (eng : Engine) (batch : List String)
    (start_component end_component : Int) : List CutRecord :=
  (eng.graph.edges.filter
    (fun r => batch.contains r.eid &&
      crossesComponents eng start_component end_component r)).map toCutRecord

/-- Fuelled slicing loop `for i in range(0, len(path_rel_list), batch_size)`
(line 483), each round taking the slice `path_rel_list[i:i+batch_size]`. -/
def batchesAux (batch_size : Nat) : Nat → List String → List (List String)
  | _, [] => []
  | 0, _ :: _ => []
  | fuel + 1, x :: xs =>
    (x :: xs).take batch_size :: batchesAux batch_size fuel ((x :: xs).drop batch_size)

/-- The batches of the masked-edge-id list, in order. -/
def batches (batch_size : Nat) (l : List String) : List (List String) :=
  batchesAux batch_size l.length l

/-- Embeds `MinCutFinder._identify_min_cut_relationships` (lines 430-499).
The source fixes `batch_size = 1000` (line 482); it is exposed here as a
parameter so that batching properties can be stated — the orchestrator passes
1000.  A zero batch size makes the Python `range` raise `ValueError`. -/
def identify_min_cut_relationships (eng : Engine)
    (path_relationships : List String)
    (start_node_id end_node_id : String)
    (projection_name : String) (batch_size : Nat) :
    Except PyError (List CutRecord) × List EngineCall :=
  let sc := get_component_id eng start_node_id projection_name
  let ec := get_component_id eng end_node_id projection_name
  let tr := sc.snd ++ ec.snd
  match sc.fst with
  | none =>
    (.error (.valueError ("Start node " ++ start_node_id ++ " not found in component mapping")), tr)
  | some start_component =>
    match ec.fst with
    | none =>
      (.error (.valueError ("End node " ++ end_node_id ++ " not found in component mapping")), tr)
    | some end_component =>
      if start_component == end_component then
        (.ok [], tr)
      else if batch_size == 0 then
        (.error (.valueError "range() arg 3 must not be zero"), tr)
      else
        let bs := batches batch_size path_relationships
        (.ok ((bs.map (fun b => cutQueryBatch eng b start_component end_component)).flatten),
         tr ++ bs.map (fun b => .cutQuery b))

namespace MinCutFinder

/-- Embeds the orchestrator method `MinCutFinder.find_min_cut`
(mincut.py lines 79-169).  `driver_connected` models `self.driver` being
already set (line 100: `if not self.driver: self.connect()`).  The two node
ids are normalised with `.strip()` (lines 108-109); then the phases run in
order, an empty path list short-circuits to an empty result (lines 122-124),
and the projection is dropped as step 6 of the happy path (line 156).  The
`except` clause (lines 167-169) logs the error and re-raises it unchanged, so
an error from any phase is surfaced as is, with no further engine call. -/
def find_min_cut (eng : Engine) (driver_connected : Bool)
    (start_node_id end_node_id : PyValue)
    (relationship_types node_labels : List String)
    (max_path_length : Nat) :
    Except PyError (List CutRecord) × List EngineCall :=
  let ct : List EngineCall := if driver_connected then [] else [.connect]
  match pyStrip start_node_id with
  | .error e => (.error e, ct)
  | .ok start_id =>
    match pyStrip end_node_id with
    | .error e => (.error e, ct)
    | .ok end_id =>
      match find_edge_disjoint_paths eng start_id end_id relationship_types
          node_labels max_path_length with
      | (.error e, t1) => (.error e, ct ++ t1)
      | (.ok paths, t1) =>
        if paths.isEmpty then
          (.ok [], ct ++ t1)
        else
          let path_relationships := extract_relationships_from_paths paths
          match create_gds_projection_without_paths eng path_relationships
              relationship_types node_labels with
          | (.error e, t2) => (.error e, ct ++ t1 ++ t2)
          | (.ok projection_name, t2) =>
            match run_wcc_algorithm eng projection_name with
            | (.error e, t3) => (.error e, ct ++ t1 ++ t2 ++ t3)
            | (.ok _, t3) =>
              match identify_min_cut_relationships eng path_relationships
                  start_id end_id "min_cut_projection" 1000 with
              | (.error e, t4) => (.error e, ct ++ t1 ++ t2 ++ t3 ++ t4)
              | (.ok min_cut, t4) =>
                let t5 := (drop_gds_projection projection_name).snd
                (.ok min_cut, ct ++ t1 ++ t2 ++ t3 ++ t4 ++ t5)

end MinCutFinder

/-- Embeds the module-level `find_min_cut` entry point (mincut.py lines
501-542): builds a fresh `MinCutFinder` (driver unset), optionally converts
integer database ids to element ids via `get_element_id_from_id` (which
connects first, lines 404-409), delegates to the method, and always closes the
driver in the `finally` block. -/
def find_min_cut (eng : Engine) (start_node_id end_node_id : PyValue)
    (relationship_types node_labels : List String) (max_path_length : Nat)
    (ids_are_node_ids : Bool) :
    Except PyError (List CutRecord) × List EngineCall :=
  let conv : PyValue × PyValue × List EngineCall :=
    if ids_are_node_ids then
      (.str (eng.elementIdFromId start_node_id),
       .str (eng.elementIdFromId end_node_id),
       [.connect, .getElementId, .getElementId])
    else
      (start_node_id, end_node_id, [])
  let r := MinCutFinder.find_min_cut eng ids_are_node_ids conv.1 conv.2.1
    relationship_types node_labels max_path_length
  (r.fst, conv.2.2 ++ r.snd ++ [.closeDriver])

/-! Semantics of the projection query sent by
`_create_gds_projection_without_paths` (lines 286-305):
`MATCH (a) OPTIONAL MATCH (a)-[r]->(b) WHERE (a:L1 OR ...) AND (b:L1 OR ...)
AND (type(r) = T1 OR ...) AND NOT elementId(r) IN $excluded_rel_ids`, the rows
of which are aggregated by `gds.graph.project(source, target, ...)`. -/

/-- Truth of the Cypher disjunction `n:L1 OR n:L2 OR ...` at a node. -/
def nodeCond (node_labels : List String) (n : Node) : Bool :=
  node_labels.any (fun l => n.labels.contains l)

/-- Truth of the Cypher disjunction `type(r) = T1 OR ...` at a relationship. -/
def typeCond (relationship_types : List String) (r : Edge) : Bool :=
  relationship_types.any (fun t => r.typ == t)

/-- Node lookup by element id. -/
def findNode (g : Graph) (node_id : String) : Option Node :=
  g.nodes.find? (fun n => n.id == node_id)

/-- WHERE test of the OPTIONAL MATCH for a candidate row `(a)-[r]->(b)`. -/
def edgeRowKept (g : Graph) (node_labels relationship_types excluded : List String)
    (a : Node) (r : Edge) : Bool :=
  r.src == a.id &&
  (match findNode g r.tgt with
   | some b =>
     nodeCond node_labels a && nodeCond node_labels b &&
     typeCond relationship_types r && !(excluded.contains r.eid)
   | none => false)

/-- Rows of `MATCH (a) OPTIONAL MATCH (a)-[r]->(b) WHERE ...`: every node `a`
of the database produces at least one row — the matching `(r, b)` rows when
some edge passes the WHERE test, or a single row with a null relationship
otherwise. -/
def projectionRows (g : Graph)
    (node_labels relationship_types excluded : List String) :
    List (Node × Option Edge) :=
  g.nodes.flatMap (fun a =>
    let matched := g.edges.filter (edgeRowKept g node_labels relationship_types excluded a)
    if matched.isEmpty then [(a, none)] else matched.map (fun r => (a, some r)))

/-- Relationship set of the projection materialised by `gds.graph.project`:
the non-null relationships of the rows. -/
def projectionEdges (g : Graph)
    (node_labels relationship_types excluded : List String) : List Edge :=
  (projectionRows g node_labels relationship_types excluded).filterMap (fun row => row.2)

/-- Node-id set of the projection materialised by `gds.graph.project`: each
row contributes its source node (also when the relationship is null, as an
isolated node) and, for non-null relationships, its target node. -/
def projectionNodeIds (g : Graph)
    (node_labels relationship_types excluded : List String) : List String :=
  ((projectionRows g node_labels relationship_types excluded).map (fun row => row.1.id) ++
   (projectionRows g node_labels relationship_types excluded).filterMap
     (fun row => row.2.map (fun r => r.tgt))).dedup

/-! Helper lemmas about the batching loop and the cut selection. -/

/-- Concatenating the slices taken by the fuelled batching loop restores the
original list, provided the fuel covers the list and the step is positive. -/
theorem batchesAux_flatten (batch_size : Nat) (hbs : 1 ≤ batch_size) :
    ∀ (fuel : Nat) (l : List String), l.length ≤ fuel →
      (batchesAux batch_size fuel l).flatten = l := by
  intro fuel
  induction fuel with
  | zero =>
    intro l hl
    cases l with
    | nil => rfl
    | cons x xs => simp at hl
  | succ n ih =>
    intro l hl
    cases l with
    | nil => rfl
    | cons x xs =>
      rw [batchesAux, List.flatten_cons, ih ((x :: xs).drop batch_size)
        (by rw [List.length_drop]; simp only [List.length_cons] at hl ⊢; omega)]
      exact List.take_append_drop _ _

/-- Concatenating all batches restores the masked-edge-id list. -/
theorem batches_flatten (batch_size : Nat) (hbs : 1 ≤ batch_size) (l : List String) :
    (batches batch_size l).flatten = l :=
  batchesAux_flatten batch_size hbs l.length l le_rfl

/-- Membership in some batch is membership in the original list. -/
theorem mem_batches_iff (batch_size : Nat) (hbs : 1 ≤ batch_size)
    (l : List String) (x : String) :
    (∃ b ∈ batches batch_size l, x ∈ b) ↔ x ∈ l := by
  conv_rhs => rw [← batches_flatten batch_size hbs l]
  exact List.mem_flatten.symm

/-- Characterisation of membership in a successful cut selection: a record is
returned exactly when it comes from a database edge whose element id is in the
masked-edge-id list and whose endpoints cross the two (distinct) components of
the source and target. -/
theorem mem_identify_ok (eng : Engine) (l : List String) (s t pn : String)
    (batch_size : Nat) (res : List CutRecord)
    (h : (identify_min_cut_relationships eng l s t pn batch_size).fst = .ok res)
    (rec : CutRecord) :
    rec ∈ res ↔ ∃ sc ec, eng.componentOf s = some sc ∧ eng.componentOf t = some ec ∧
      sc ≠ ec ∧ ∃ r ∈ eng.graph.edges, r.eid ∈ l ∧
        crossesComponents eng sc ec r = true ∧ rec = toCutRecord r := by
  simp only [identify_min_cut_relationships, get_component_id] at h
  rcases hs : eng.componentOf s with _ | sc0 <;> rw [hs] at h
  · simp at h
  · rcases ht : eng.componentOf t with _ | ec0 <;> rw [ht] at h
    · simp at h
    · dsimp only at h
      by_cases heq : sc0 == ec0
      · rw [if_pos heq] at h
        obtain rfl := (Except.ok.inj h).symm
        simp only [List.not_mem_nil, false_iff]
        rintro ⟨sc, ec, hsc, hec, hne, -⟩
        obtain rfl := Option.some.inj hsc
        obtain rfl := Option.some.inj hec
        exact hne (beq_iff_eq.mp heq)
      · rw [if_neg heq] at h
        by_cases hz : batch_size == 0
        · rw [if_pos hz] at h; simp at h
        · rw [if_neg hz] at h
          obtain rfl := (Except.ok.inj h).symm
          have hbs : 1 ≤ batch_size := by
            rcases Nat.eq_zero_or_pos batch_size with h0 | h1
            · exact absurd (by simpa using h0) hz
            · exact h1
          constructor
          · intro hrec
            rw [List.mem_flatten] at hrec
            obtain ⟨bl, hbl, hrecbl⟩ := hrec
            rw [List.mem_map] at hbl
            obtain ⟨b, hb, hblb⟩ := hbl
            subst hblb
            simp only [cutQueryBatch, List.mem_map, List.mem_filter,
              Bool.and_eq_true] at hrecbl
            obtain ⟨r, ⟨hrmem, hrin, hcross⟩, hrrec⟩ := hrecbl
            refine ⟨sc0, ec0, rfl, rfl, fun hc => heq (beq_iff_eq.mpr hc), r, hrmem,
              ?_, hcross, hrrec.symm⟩
            exact (mem_batches_iff batch_size hbs l r.eid).mp
              ⟨b, hb, List.elem_iff.mp hrin⟩
          · rintro ⟨sc, ec, hsc, hec, hne, r, hrmem, hrid, hcross, hrrec⟩
            obtain rfl := Option.some.inj hsc
            obtain rfl := Option.some.inj hec
            obtain ⟨b, hb, hxb⟩ := (mem_batches_iff batch_size hbs l r.eid).mpr hrid
            rw [List.mem_flatten]
            refine ⟨cutQueryBatch eng b sc0 ec0, List.mem_map.mpr ⟨b, hb, rfl⟩, ?_⟩
            simp only [cutQueryBatch, List.mem_map, List.mem_filter,
              Bool.and_eq_true]
            exact ⟨r, ⟨hrmem, List.elem_iff.mpr hxb, hcross⟩, hrrec.symm⟩

/-! Concrete fixtures used to evaluate the definitions on closed inputs. -/

/-- Small concrete database graph: two `L`-labelled nodes joined by `e1`, and
an `Other`-labelled node attached to `n1` by `e2`. -/
def gDemo : Graph :=
  { nodes := [⟨"n1", ["L"]⟩, ⟨"n2", ["L"]⟩, ⟨"x1", ["Other"]⟩],
    edges := [⟨"e1", "n1", "n2", "R"⟩, ⟨"e2", "n1", "x1", "R"⟩] }

/-- Engine run in which one path over `e1` is found, the projection succeeds,
and after masking the endpoints fall into two distinct components. -/
def engOk : Engine :=
  { graph := gDemo,
    expandResult := .ok [⟨[⟨"e1", "n1", "n2", "R"⟩]⟩],
    projectResult := .ok (),
    wccResult := .ok 2,
    componentOf := fun nid =>
      if nid == "n1" then some 0 else if nid == "n2" then some 1 else none,
    elementIdFromId := fun _ => "n1" }

/-- Engine run in which one path is found and the projection succeeds, but the
WCC computation reports a single component (and every node carries the same
component label). -/
def engWccOne : Engine :=
  { graph := gDemo,
    expandResult := .ok [⟨[⟨"e1", "n1", "n2", "R"⟩]⟩],
    projectResult := .ok (),
    wccResult := .ok 1,
    componentOf := fun _ => some 0,
    elementIdFromId := fun _ => "n1" }

/-- Engine run in which no edge-disjoint path is discovered. -/
def engNoPaths : Engine :=
  { engOk with expandResult := .ok [] }

/-- Engine run in which the projection-creation query fails server side. -/
def engProjFail : Engine :=
  { engOk with projectResult := .error (.neo4jError "boom") }

/-- Engine run in which the WCC call itself fails server side. -/
def engWccFail : Engine :=
  { engOk with wccResult := .error (.neo4jError "boom") }

/-- Engine run in which WCC succeeds but neither endpoint carries a component
label, so cut selection raises. -/
def engCompMissing : Engine :=
  { engOk with componentOf := fun _ => none }

/-! Discriminators for counting phase calls in a trace. -/

/-- Tests whether a call is the path-expansion query. -/
def EngineCall.isExpand : EngineCall → Bool
  | .expandPaths _ _ => true
  | _ => false

/-- Tests whether a call is the projection-creation query. -/
def EngineCall.isCreate : EngineCall → Bool
  | .createProjection _ => true
  | _ => false

/-- Tests whether a call is the WCC computation. -/
def EngineCall.isWcc : EngineCall → Bool
  | .wcc _ => true
  | _ => false

/-- Tests whether a call is a projection drop. -/
def EngineCall.isDrop : EngineCall → Bool
  | .dropProjection _ => true
  | _ => false

/-- Tests whether a trace performs a projection drop strictly after its first
projection creation. -/
def dropsAfterCreate (tr : List EngineCall) : Bool :=
  ((tr.dropWhile (fun c => ! c.isCreate)).drop 1).any EngineCall.isDrop

/-- Cut selection always starts by reading the source component label. -/
theorem readComponent_mem_identify_snd (eng : Engine) (l : List String)
    (s t pn : String) (batch_size : Nat) :
    EngineCall.readComponent s ∈
      (identify_min_cut_relationships eng l s t pn batch_size).snd := by
  simp only [identify_min_cut_relationships, get_component_id]
  rcases eng.componentOf s with _ | sc <;> rcases eng.componentOf t with _ | ec <;>
    dsimp only <;> [skip; skip; skip; split_ifs] <;> simp

/-- Big-step reduction of the orchestrator on its main path: when paths are
found, the projection filters are non-degenerate, projection creation succeeds
and WCC reports more than one component, the result of the invocation is the
result of cut selection, and the trace is the phase calls followed — only when cut
selection returns normally — by the final projection drop. -/
theorem find_min_cut_main_path (eng : Engine) (conn : Bool) (s t : String)
    (rts nls : List String) (ml : Nat) (paths : List GPath) (n : Nat)
    (hp : eng.expandResult = .ok paths) (hne : ¬paths.isEmpty = true)
    (hrts : ¬rts.isEmpty = true) (hnl : ¬(get_node_condition "a" nls).isEmpty = true)
    (hproj : eng.projectResult = .ok ()) (hwcc : eng.wccResult = .ok n)
    (hn : 1 < n) :
    (MinCutFinder.find_min_cut eng conn (.str s) (.str t) rts nls ml).fst =
      (identify_min_cut_relationships eng (extract_relationships_from_paths paths)
        (pyTrim s) (pyTrim t) "min_cut_projection" 1000).fst ∧
    (MinCutFinder.find_min_cut eng conn (.str s) (.str t) rts nls ml).snd =
      ((if conn then [] else [EngineCall.connect]) ++
        (find_edge_disjoint_paths eng (pyTrim s) (pyTrim t) rts nls ml).snd ++
        [EngineCall.dropProjection "min_cut_projection",
         EngineCall.createProjection "min_cut_projection"] ++
        [EngineCall.wcc "min_cut_projection"] ++
        (identify_min_cut_relationships eng (extract_relationships_from_paths paths)
          (pyTrim s) (pyTrim t) "min_cut_projection" 1000).snd) ++
      (match (identify_min_cut_relationships eng (extract_relationships_from_paths paths)
          (pyTrim s) (pyTrim t) "min_cut_projection" 1000).fst with
       | .ok _ => [EngineCall.dropProjection "min_cut_projection"]
       | .error _ => ([] : List EngineCall)) := by
  simp only [MinCutFinder.find_min_cut, pyStrip]
  simp only [find_edge_disjoint_paths]
  rw [hp]
  dsimp only
  rw [if_neg hne]
  simp only [create_gds_projection_without_paths, rel_type_condition,
    drop_gds_projection]
  rw [if_neg hrts]
  dsimp only
  rw [if_neg hnl, hproj]
  dsimp only
  simp only [run_wcc_algorithm]
  rw [hwcc]
  dsimp only
  rw [if_neg (not_not_intro hn)]
  dsimp only
  rcases hid : identify_min_cut_relationships eng
      (extract_relationships_from_paths paths) (pyTrim s) (pyTrim t)
      "min_cut_projection" 1000 with ⟨r4, t4⟩
  cases r4 <;> simp

/-- The WCC phase always issues exactly its single engine call. -/
theorem run_wcc_snd (eng : Engine) (pn : String) :
    (run_wcc_algorithm eng pn).snd = [.wcc pn] := by
  simp only [run_wcc_algorithm]
  rcases eng.wccResult with e | n
  · rfl
  · dsimp only
    split <;> rfl

/-- A failing cut selection raised on a missing component label, so its trace
is exactly the two component reads. -/
theorem identify_error_snd (eng : Engine) (l : List String) (s t pn : String)
    (bs : Nat) (e : PyError) (tr : List EngineCall)
    (h : identify_min_cut_relationships eng l s t pn bs = (.error e, tr)) :
    tr = [.readComponent s, .readComponent t] := by
  simp only [identify_min_cut_relationships, get_component_id] at h
  rcases hs : eng.componentOf s with _ | sc <;> rw [hs] at h <;>
    rcases ht : eng.componentOf t with _ | ec <;> rw [ht] at h <;> dsimp only at h
  · injection h with h1 h2
    exact h2.symm
  · injection h with h1 h2
    exact h2.symm
  · injection h with h1 h2
    exact h2.symm
  · split_ifs at h
    · injection h with h1 h2
      simp at h1
    · injection h with h1 h2
      exact h2.symm
    · injection h with h1 h2
      simp at h1

/-- Big-step reduction of the orchestrator when the WCC phase raises (either
an engine failure or the degenerate component count): the error is surfaced
and the trace stops at the WCC call — the only drop is the idempotent reset
that precedes projection creation. -/
theorem find_min_cut_wcc_failure (eng : Engine) (conn : Bool) (s t : String)
    (rts nls : List String) (ml : Nat) (paths : List GPath) (e : PyError)
    (hp : eng.expandResult = .ok paths) (hne : ¬paths.isEmpty = true)
    (hrts : ¬rts.isEmpty = true) (hnl : ¬(get_node_condition "a" nls).isEmpty = true)
    (hproj : eng.projectResult = .ok ())
    (hw : (run_wcc_algorithm eng "min_cut_projection").fst = .error e) :
    MinCutFinder.find_min_cut eng conn (.str s) (.str t) rts nls ml =
      (.error e,
       (if conn then [] else [EngineCall.connect]) ++
         (find_edge_disjoint_paths eng (pyTrim s) (pyTrim t) rts nls ml).snd ++
         [EngineCall.dropProjection "min_cut_projection",
          EngineCall.createProjection "min_cut_projection"] ++
         [EngineCall.wcc "min_cut_projection"]) := by
  simp only [MinCutFinder.find_min_cut, pyStrip]
  simp only [find_edge_disjoint_paths]
  rw [hp]
  dsimp only
  rw [if_neg hne]
  simp only [create_gds_projection_without_paths, rel_type_condition,
    drop_gds_projection]
  rw [if_neg hrts]
  dsimp only
  rw [if_neg hnl, hproj]
  dsimp only
  rcases hrw : run_wcc_algorithm eng "min_cut_projection" with ⟨r3, t3⟩
  have h3 : t3 = [EngineCall.wcc "min_cut_projection"] := by
    rw [← run_wcc_snd eng "min_cut_projection", hrw]
  have hr3 : r3 = .error e := by
    rw [← hw, hrw]
  subst h3
  subst hr3
  simp [find_edge_disjoint_paths, List.append_assoc]

/-- A normally returning invocation either took the empty-paths short circuit
or returned exactly what cut selection produced. -/
theorem find_min_cut_ok_cases (eng : Engine) (conn : Bool) (s t : String)
    (rts nls : List String) (ml : Nat) (paths : List GPath) (res : List CutRecord)
    (hp : eng.expandResult = .ok paths)
    (hres : (MinCutFinder.find_min_cut eng conn (.str s) (.str t) rts nls ml).fst = .ok res) :
    res = [] ∨
      (identify_min_cut_relationships eng (extract_relationships_from_paths paths)
        (pyTrim s) (pyTrim t) "min_cut_projection" 1000).fst = .ok res := by
  simp only [MinCutFinder.find_min_cut, pyStrip, find_edge_disjoint_paths] at hres
  rw [hp] at hres
  dsimp only at hres
  by_cases hpe : paths.isEmpty
  · rw [if_pos hpe] at hres
    exact .inl (Except.ok.inj hres).symm
  · rw [if_neg hpe] at hres
    simp only [create_gds_projection_without_paths, rel_type_condition,
      drop_gds_projection] at hres
    by_cases hrts : rts.isEmpty
    · rw [if_pos hrts] at hres; simp at hres
    · rw [if_neg hrts] at hres
      dsimp only at hres
      by_cases hnl : (get_node_condition "a" nls).isEmpty
      · rw [if_pos hnl] at hres; simp at hres
      · rw [if_neg hnl] at hres
        rcases hpr : eng.projectResult with e | u
        · rw [hpr] at hres; simp at hres
        · rw [hpr] at hres
          dsimp only at hres
          simp only [run_wcc_algorithm] at hres
          rcases hw : eng.wccResult with e | n
          · rw [hw] at hres; simp at hres
          · rw [hw] at hres
            dsimp only at hres
            by_cases hn : ¬ n > 1
            · rw [if_pos hn] at hres; simp at hres
            · rw [if_neg hn] at hres
              dsimp only at hres
              rcases hid : identify_min_cut_relationships eng
                  (extract_relationships_from_paths paths) (pyTrim s) (pyTrim t)
                  "min_cut_projection" 1000 with ⟨r4, t4⟩
              rw [hid] at hres
              cases r4 with
              | error e => simp at hres
              | ok mc =>
                right
                dsimp only at hres ⊢
                exact hres

/-- C4: when the component labels read back for the source node and the target
node are equal after masking, cut selection deterministically returns the empty
cut, raising no error, and issues no cut query — only the two component
reads. -/
theorem same_component_returns_empty_cut (eng : Engine) (l : List String)
    (s t pn : String) (batch_size : Nat) (c : Int)
    (hs : eng.componentOf s = some c) (ht : eng.componentOf t = some c) :
    identify_min_cut_relationships eng l s t pn batch_size =
      (.ok [], [.readComponent s, .readComponent t]) := by
  simp only [identify_min_cut_relationships, get_component_id]
  rw [hs, ht]
  simp

/-- C4 witness: concrete run of the same-component branch. -/
theorem same_component_returns_empty_cut_witness :
    identify_min_cut_relationships engWccOne ["e1"] "n1" "n2" "min_cut_projection" 1000 =
      (.ok [], [.readComponent "n1", .readComponent "n2"]) :=
  same_component_returns_empty_cut engWccOne ["e1"] "n1" "n2" "min_cut_projection" 1000 0
    rfl rfl

/-- C5: when path enumeration discovers zero edge-disjoint paths, the
orchestrator returns the empty result without raising, and the trace shows that
no later phase (projection creation, WCC, component reads, cut queries, drop)
was executed. -/
theorem no_paths_returns_empty_without_later_phases (eng : Engine) (conn : Bool)
    (s t : String) (rts nls : List String) (ml : Nat)
    (hp : eng.expandResult = .ok []) :
    MinCutFinder.find_min_cut eng conn (.str s) (.str t) rts nls ml =
      (.ok [], (if conn then [] else [EngineCall.connect]) ++
        [EngineCall.expandPaths (if rts.isEmpty then "" else String.intercalate "|" rts)
          (if nls.isEmpty then "" else String.intercalate "|" nls)]) := by
  simp only [MinCutFinder.find_min_cut, pyStrip, find_edge_disjoint_paths]
  rw [hp]
  rfl

/-- C5 witness: concrete run in which no path is found. -/
theorem no_paths_returns_empty_without_later_phases_witness :
    MinCutFinder.find_min_cut engNoPaths false (.str "n1") (.str "n2") ["R"] ["L"] 10 =
      (.ok [], [.connect, .expandPaths "R" "L"]) :=
  no_paths_returns_empty_without_later_phases engNoPaths false "n1" "n2" ["R"] ["L"] 10 rfl

/-- C6: given that the WCC computation of the engine reports a component count, the
component-computation phase raises exactly when that count is at most 1; with a
count greater than 1 it completes normally, and the orchestration then goes on
to cut selection (it reads the source component label). -/
theorem wcc_fatal_iff_component_count_le_one (eng : Engine) (pn : String) (n : Nat)
    (h : eng.wccResult = .ok n) :
    ((run_wcc_algorithm eng pn).fst =
        .error (.valueError "No min-cut exists between the specified nodes") ↔ n ≤ 1) ∧
    (1 < n → (run_wcc_algorithm eng pn).fst = .ok ()) ∧
    (∀ (conn : Bool) (s t : String) (rts nls : List String) (ml : Nat)
        (paths : List GPath), 1 < n → eng.expandResult = .ok paths →
        ¬paths.isEmpty = true → ¬rts.isEmpty = true →
        ¬(get_node_condition "a" nls).isEmpty = true → eng.projectResult = .ok () →
        EngineCall.readComponent (pyTrim s) ∈
          (MinCutFinder.find_min_cut eng conn (.str s) (.str t) rts nls ml).snd) := by
  refine ⟨?_, ?_, ?_⟩
  · simp only [run_wcc_algorithm]
    rw [h]
    dsimp only
    by_cases hn : n > 1
    · rw [if_neg (not_not_intro hn)]
      simp
      omega
    · rw [if_pos hn]
      simp
      omega
  · intro h1
    simp only [run_wcc_algorithm]
    rw [h]
    dsimp only
    rw [if_neg (not_not_intro h1)]
  · intro conn s t rts nls ml paths h1 hp hne hrts hnl hproj
    have hm := (find_min_cut_main_path eng conn s t rts nls ml paths n hp hne hrts
      hnl hproj h h1).2
    rw [hm]
    have := readComponent_mem_identify_snd eng (extract_relationships_from_paths paths)
      (pyTrim s) (pyTrim t) "min_cut_projection" 1000
    simp only [List.mem_append]
    exact .inl (.inr this)

/-- C6 witness: concrete runs exercising both sides of the dichotomy. -/
theorem wcc_fatal_iff_component_count_le_one_witness :
    (run_wcc_algorithm engOk "min_cut_projection").fst = .ok () ∧
    (run_wcc_algorithm engWccOne "min_cut_projection").fst =
      .error (.valueError "No min-cut exists between the specified nodes") :=
  ⟨(wcc_fatal_iff_component_count_le_one engOk "min_cut_projection" 2 rfl).2.1
      (by norm_num),
   (wcc_fatal_iff_component_count_le_one engWccOne "min_cut_projection" 1 rfl).1.mpr
      (by norm_num)⟩

/-- C7: the edge-id set produced by cut selection is invariant under the batch
size used to partition the masked-edge-id list — batch size 1 and batch size
1000 yield the identical resulting edge-id set for every masked-edge list,
endpoint pair and projection state. -/
theorem cut_selection_batch_size_invariant (eng : Engine) (l : List String)
    (s t pn : String) (r1 r2 : List CutRecord)
    (h1 : (identify_min_cut_relationships eng l s t pn 1).fst = .ok r1)
    (h2 : (identify_min_cut_relationships eng l s t pn 1000).fst = .ok r2) :
    (r1.map CutRecord.id).toFinset = (r2.map CutRecord.id).toFinset := by
  ext x
  simp only [List.mem_toFinset, List.mem_map]
  constructor
  · rintro ⟨rec, hrec, rfl⟩
    exact ⟨rec, (mem_identify_ok eng l s t pn 1000 r2 h2 rec).mpr
      ((mem_identify_ok eng l s t pn 1 r1 h1 rec).mp hrec), rfl⟩
  · rintro ⟨rec, hrec, rfl⟩
    exact ⟨rec, (mem_identify_ok eng l s t pn 1 r1 h1 rec).mpr
      ((mem_identify_ok eng l s t pn 1000 r2 h2 rec).mp hrec), rfl⟩

/-- C7 witness: concrete cut selection over a two-id masked list, batch size 1
(two round trips) against batch size 1000 (one round trip). -/
theorem cut_selection_batch_size_invariant_witness :
    ([CutRecord.mk "e1" "n1" "n2"].map CutRecord.id).toFinset =
      ([CutRecord.mk "e1" "n1" "n2"].map CutRecord.id).toFinset :=
  cut_selection_batch_size_invariant engOk ["e1", "e2"] "n1" "n2" "min_cut_projection"
    [⟨"e1", "n1", "n2"⟩] [⟨"e1", "n1", "n2"⟩] rfl rfl

/-- C8: every edge descriptor in a normally returned cut result has an id that
belongs to the masked-edge set extracted from the enumerated paths; no edge
outside that set ever appears in the result. -/
theorem cut_result_within_masked_set (eng : Engine) (conn : Bool) (s t : String)
    (rts nls : List String) (ml : Nat) (paths : List GPath) (res : List CutRecord)
    (hp : eng.expandResult = .ok paths)
    (hres : (MinCutFinder.find_min_cut eng conn (.str s) (.str t) rts nls ml).fst = .ok res) :
    ∀ rec ∈ res, rec.id ∈ extract_relationships_from_paths paths := by
  intro rec hrec
  rcases find_min_cut_ok_cases eng conn s t rts nls ml paths res hp hres with rfl | hok
  · simp at hrec
  · obtain ⟨sc, ec, -, -, -, r, -, hrl, -, rfl⟩ :=
      (mem_identify_ok eng (extract_relationships_from_paths paths) (pyTrim s) (pyTrim t)
        "min_cut_projection" 1000 res hok rec).mp hrec
    exact hrl

/-- C8 witness: in the concrete successful run the returned edge id lies in the
masked-edge set of the single enumerated path. -/
theorem cut_result_within_masked_set_witness :
    "e1" ∈ extract_relationships_from_paths [⟨[⟨"e1", "n1", "n2", "R"⟩]⟩] :=
  cut_result_within_masked_set engOk true "n1" "n2" ["R"] ["L"] 10
    [⟨[⟨"e1", "n1", "n2", "R"⟩]⟩] [⟨"e1", "n1", "n2"⟩] rfl (by decide)
    ⟨"e1", "n1", "n2"⟩ (by decide)

/-- C10: calling the module-level entry point with `ids_are_node_ids` left at
its default `False` and a non-string (integer) start id raises
`AttributeError` from the `.strip()` normalisation; the trace shows only the
connection and the driver close — no algorithm phase ever contacts the
engine. -/
theorem nonstring_id_raises_attribute_error (eng : Engine) (k : Int)
    (end_node_id : PyValue) (s : String) (rts nls : List String) (ml : Nat) :
    find_min_cut eng (.int k) end_node_id rts nls ml false =
      (.error (.attributeError "int object has no attribute strip"),
       [EngineCall.connect, EngineCall.closeDriver]) ∧
    find_min_cut eng (.str s) (.int k) rts nls ml false =
      (.error (.attributeError "int object has no attribute strip"),
       [EngineCall.connect, EngineCall.closeDriver]) := ⟨rfl, rfl⟩

/-- C1 counterexample: in a concrete invocation in which WCC reports a single
component, the error is surfaced while the complete engine trace ends at the
WCC call — the projection created two calls earlier is never dropped on this
exit path (the only drop in the trace is the idempotent reset that precedes
projection creation). -/
theorem wcc_failure_leaks_projection :
    (MinCutFinder.find_min_cut engWccOne true (.str "n1") (.str "n2") ["R"] ["L"] 10).fst =
      .error (.valueError "No min-cut exists between the specified nodes") ∧
    (MinCutFinder.find_min_cut engWccOne true (.str "n1") (.str "n2") ["R"] ["L"] 10).snd =
      [.expandPaths "R" "L", .dropProjection "min_cut_projection",
       .createProjection "min_cut_projection", .wcc "min_cut_projection"] :=
  ⟨rfl, rfl⟩

/-- C1 amended: under a successfully created projection, the final projection
drop executes only on the successful exit path, where it is the last engine
call of the invocation; on the empty-paths short circuit no drop runs at all;
and whenever any phase after projection creation raises — a WCC engine
failure, a degenerate component count, or a cut-selection failure on a missing
component label — the error is surfaced with no drop occurring after the
projection-creation call (for WCC-phase failures the full trace is computed,
ending at the WCC call). -/
theorem projection_drop_only_on_success (eng : Engine) (conn : Bool) (s t : String)
    (rts nls : List String) (ml : Nat) (paths : List GPath)
    (hp : eng.expandResult = .ok paths)
    (hrts : ¬rts.isEmpty = true) (hnl : ¬(get_node_condition "a" nls).isEmpty = true)
    (hproj : eng.projectResult = .ok ()) :
    (∀ res, ¬paths.isEmpty = true →
      (MinCutFinder.find_min_cut eng conn (.str s) (.str t) rts nls ml).fst = .ok res →
      (MinCutFinder.find_min_cut eng conn (.str s) (.str t) rts nls ml).snd.getLast? =
        some (.dropProjection "min_cut_projection")) ∧
    (paths.isEmpty = true →
      EngineCall.dropProjection "min_cut_projection" ∉
        (MinCutFinder.find_min_cut eng conn (.str s) (.str t) rts nls ml).snd) ∧
    (∀ e, ¬paths.isEmpty = true →
      (MinCutFinder.find_min_cut eng conn (.str s) (.str t) rts nls ml).fst = .error e →
      dropsAfterCreate
        (MinCutFinder.find_min_cut eng conn (.str s) (.str t) rts nls ml).snd = false) ∧
    (∀ e, ¬paths.isEmpty = true →
      (run_wcc_algorithm eng "min_cut_projection").fst = .error e →
      MinCutFinder.find_min_cut eng conn (.str s) (.str t) rts nls ml =
        (.error e,
         (if conn then [] else [EngineCall.connect]) ++
           (find_edge_disjoint_paths eng (pyTrim s) (pyTrim t) rts nls ml).snd ++
           [EngineCall.dropProjection "min_cut_projection",
            EngineCall.createProjection "min_cut_projection"] ++
           [EngineCall.wcc "min_cut_projection"])) := by
  refine ⟨?_, ?_, ?_, ?_⟩
  · intro res hne hres
    rcases hw : eng.wccResult with ew | n
    · rw [find_min_cut_wcc_failure eng conn s t rts nls ml paths ew hp hne hrts hnl
        hproj (by simp [run_wcc_algorithm, hw])] at hres
      simp at hres
    · by_cases hn : n > 1
      · obtain ⟨h1, h2⟩ := find_min_cut_main_path eng conn s t rts nls ml paths n hp
          hne hrts hnl hproj hw hn
        rw [h2]
        rcases hid : (identify_min_cut_relationships eng
            (extract_relationships_from_paths paths) (pyTrim s) (pyTrim t)
            "min_cut_projection" 1000).fst with e | mc
        · rw [h1, hid] at hres
          simp at hres
        · dsimp only
          exact List.getLast?_concat _
      · have hwf : (run_wcc_algorithm eng "min_cut_projection").fst =
            .error (.valueError "No min-cut exists between the specified nodes") := by
          simp only [run_wcc_algorithm]
          rw [hw]
          simp [hn]
        rw [find_min_cut_wcc_failure eng conn s t rts nls ml paths
          (.valueError "No min-cut exists between the specified nodes") hp hne hrts hnl
          hproj hwf] at hres
        simp at hres
  · intro hpe
    obtain rfl := List.isEmpty_iff.mp hpe
    simp only [MinCutFinder.find_min_cut, pyStrip, find_edge_disjoint_paths]
    rw [hp]
    dsimp only
    cases conn <;> simp
  · intro e hne herr
    rcases hw : eng.wccResult with ew | n
    · rw [find_min_cut_wcc_failure eng conn s t rts nls ml paths ew hp hne hrts hnl
        hproj (by simp [run_wcc_algorithm, hw])]
      cases conn <;>
        simp [dropsAfterCreate, find_edge_disjoint_paths, EngineCall.isCreate,
          EngineCall.isDrop]
    · by_cases hn : n > 1
      · obtain ⟨h1, h2⟩ := find_min_cut_main_path eng conn s t rts nls ml paths n hp
          hne hrts hnl hproj hw hn
        rw [h2]
        rcases hid : identify_min_cut_relationships eng
            (extract_relationships_from_paths paths) (pyTrim s) (pyTrim t)
            "min_cut_projection" 1000 with ⟨r4, t4⟩
        cases r4 with
        | ok mc =>
          rw [h1, hid] at herr
          simp at herr
        | error e4 =>
          obtain rfl := identify_error_snd eng
            (extract_relationships_from_paths paths) (pyTrim s) (pyTrim t)
            "min_cut_projection" 1000 e4 t4 hid
          dsimp only
          cases conn <;>
            simp [dropsAfterCreate, find_edge_disjoint_paths, EngineCall.isCreate,
              EngineCall.isDrop]
      · have hwf : (run_wcc_algorithm eng "min_cut_projection").fst =
            .error (.valueError "No min-cut exists between the specified nodes") := by
          simp only [run_wcc_algorithm]
          rw [hw]
          simp [hn]
        rw [find_min_cut_wcc_failure eng conn s t rts nls ml paths
          (.valueError "No min-cut exists between the specified nodes") hp hne hrts hnl
          hproj hwf]
        cases conn <;>
          simp [dropsAfterCreate, find_edge_disjoint_paths, EngineCall.isCreate,
            EngineCall.isDrop]
  · intro e hne hw
    exact find_min_cut_wcc_failure eng conn s t rts nls ml paths e hp hne hrts hnl
      hproj hw

/-- C1 amended witness: three concrete post-creation failures — the degenerate
WCC count, a WCC engine error, and a missing component label at cut selection —
obtained from the amended theorem; in each the surfaced error leaves no drop
after projection creation. -/
theorem projection_drop_only_on_success_witness :
    (MinCutFinder.find_min_cut engWccOne true (.str "n1") (.str "n2") ["R"] ["L"] 10 =
      (.error (.valueError "No min-cut exists between the specified nodes"),
       [] ++ (find_edge_disjoint_paths engWccOne (pyTrim "n1") (pyTrim "n2")
          ["R"] ["L"] 10).snd ++
         [.dropProjection "min_cut_projection", .createProjection "min_cut_projection"] ++
         [.wcc "min_cut_projection"])) ∧
    dropsAfterCreate
      (MinCutFinder.find_min_cut engWccFail true (.str "n1") (.str "n2")
        ["R"] ["L"] 10).snd = false ∧
    dropsAfterCreate
      (MinCutFinder.find_min_cut engCompMissing true (.str "n1") (.str "n2")
        ["R"] ["L"] 10).snd = false :=
  ⟨(projection_drop_only_on_success engWccOne true "n1" "n2" ["R"] ["L"] 10
      [⟨[⟨"e1", "n1", "n2", "R"⟩]⟩] rfl (by decide) (by decide) rfl).2.2.2
      (.valueError "No min-cut exists between the specified nodes") (by decide) rfl,
   (projection_drop_only_on_success engWccFail true "n1" "n2" ["R"] ["L"] 10
      [⟨[⟨"e1", "n1", "n2", "R"⟩]⟩] rfl (by decide) (by decide) rfl).2.2.1
      (.neo4jError "boom") (by decide) rfl,
   (projection_drop_only_on_success engCompMissing true "n1" "n2" ["R"] ["L"] 10
      [⟨[⟨"e1", "n1", "n2", "R"⟩]⟩] rfl (by decide) (by decide) rfl).2.2.1
      (.valueError ("Start node " ++ pyTrim "n1" ++ " not found in component mapping"))
      (by decide) rfl⟩

/-- C2 counterexample: the node `x1` does not match the label filter `L`, yet
its id is in the node set of the projection materialised by the query the core
sends
(the query matches every node and only filters the optional edge pattern). -/
theorem projection_node_set_not_label_filtered :
    Node.mk "x1" ["Other"] ∈ gDemo.nodes ∧
    nodeCond ["L"] (Node.mk "x1" ["Other"]) = false ∧
    "x1" ∈ projectionNodeIds gDemo ["L"] ["R"] [] := by
  refine ⟨by decide, by decide, by decide⟩

/-- Propositional reading of the WHERE test of the projection query. -/
theorem edgeRowKept_iff (g : Graph) (nls rts exc : List String) (a : Node) (r : Edge) :
    edgeRowKept g nls rts exc a r = true ↔
      r.src = a.id ∧ ∃ b, findNode g r.tgt = some b ∧
        nodeCond nls a = true ∧ nodeCond nls b = true ∧
        typeCond rts r = true ∧ exc.contains r.eid = false := by
  unfold edgeRowKept
  rcases hfn : findNode g r.tgt with _ | b
  · simp
  · simp [Bool.and_eq_true, beq_iff_eq, and_assoc]

/-- C2 amended: every relationship of the materialised projection matches the
relationship-type filter, has both endpoints matching the node-label filter
and is not in the masked-edge set; the node set of the projection, however, is not
restricted — it contains every node of the database, nodes failing the label
filter included (they appear isolated). -/
theorem projection_content (g : Graph) (nls rts exc : List String) :
    (∀ r ∈ projectionEdges g nls rts exc,
        typeCond rts r = true ∧ exc.contains r.eid = false ∧
        (∃ a ∈ g.nodes, a.id = r.src ∧ nodeCond nls a = true) ∧
        (∃ b, findNode g r.tgt = some b ∧ nodeCond nls b = true)) ∧
    (∀ nd ∈ g.nodes, nd.id ∈ projectionNodeIds g nls rts exc) := by
  constructor
  · intro r hr
    simp only [projectionEdges, List.mem_filterMap] at hr
    obtain ⟨row, hrow, hoe⟩ := hr
    simp only [projectionRows, List.mem_flatMap] at hrow
    obtain ⟨a0, ha0, hrow2⟩ := hrow
    by_cases hm : (g.edges.filter (edgeRowKept g nls rts exc a0)).isEmpty
    · rw [if_pos hm] at hrow2
      simp only [List.mem_singleton] at hrow2
      subst hrow2
      simp at hoe
    · rw [if_neg hm] at hrow2
      rw [List.mem_map] at hrow2
      obtain ⟨r0, hr0, heq⟩ := hrow2
      subst heq
      simp only at hoe
      obtain rfl := Option.some.inj hoe
      rw [List.mem_filter] at hr0
      obtain ⟨hr0mem, hkept⟩ := hr0
      obtain ⟨hsrc, b, hfn, hca, hcb, htc, hexc⟩ :=
        (edgeRowKept_iff g nls rts exc a0 r0).mp hkept
      exact ⟨htc, hexc, ⟨a0, ha0, hsrc.symm, hca⟩, ⟨b, hfn, hcb⟩⟩
  · intro nd hnd
    simp only [projectionNodeIds, List.mem_dedup, List.mem_append]
    left
    rw [List.mem_map]
    simp only [projectionRows, List.mem_flatMap]
    by_cases hm : (g.edges.filter (edgeRowKept g nls rts exc nd)).isEmpty
    · exact ⟨(nd, none), ⟨nd, hnd, by rw [if_pos hm]; simp⟩, rfl⟩
    · have hnn : g.edges.filter (edgeRowKept g nls rts exc nd) ≠ [] := by
        intro hnil
        rw [hnil] at hm
        exact hm rfl
      obtain ⟨r0, hr0⟩ := List.exists_mem_of_ne_nil _ hnn
      exact ⟨(nd, some r0), ⟨nd, hnd, by
        rw [if_neg hm]; exact List.mem_map.mpr ⟨r0, hr0, rfl⟩⟩, rfl⟩

/-- C2 amended witness: the edge `e1` of the concrete projection, evaluated
through the amended theorem. -/
theorem projection_content_witness :
    typeCond ["R"] ⟨"e1", "n1", "n2", "R"⟩ = true ∧
    ([] : List String).contains "e1" = false ∧
    (∃ a ∈ gDemo.nodes, a.id = "n1" ∧ nodeCond ["L"] a = true) ∧
    (∃ b, findNode gDemo "n2" = some b ∧ nodeCond ["L"] b = true) :=
  (projection_content gDemo ["L"] ["R"] []).1 ⟨"e1", "n1", "n2", "R"⟩ (by decide)

/-- C3: with an empty `relationship_types` list, projection creation raises
`UnboundLocalError` while building the query string (the `else "true"`
fallback written on line 283 is unreachable, showing the intended behaviour),
and with an empty `node_labels` list the sent query is malformed and rejected
by the engine — while path enumeration builds the unrestricted empty patterns
for the same inputs without any error. -/
theorem empty_filters_break_projection_creation :
    (create_gds_projection_without_paths engOk ["e1"] [] ["L"]).fst =
      .error (.unboundLocalError "cannot access local variable rel_type_condition") ∧
    (create_gds_projection_without_paths engOk ["e1"] ["R"] []).fst =
      .error (.neo4jError "SyntaxError: Invalid input )") ∧
    (MinCutFinder.find_min_cut engOk true (.str "n1") (.str "n2") [] ["L"] 10).fst =
      .error (.unboundLocalError "cannot access local variable rel_type_condition") ∧
    (find_edge_disjoint_paths engOk "n1" "n2" [] [] 10).snd =
      [.expandPaths "" ""] :=
  ⟨rfl, rfl, rfl, rfl⟩

/-- C9 counterexample: two invocations failing in different phases (projection
creation vs WCC) surface the identical exception — the caller-visible error is
the engine error re-raised unchanged and carries no phase name. -/
theorem surfaced_error_does_not_identify_phase :
    (MinCutFinder.find_min_cut engProjFail true (.str "n1") (.str "n2") ["R"] ["L"] 10).fst =
      .error (.neo4jError "boom") ∧
    (MinCutFinder.find_min_cut engWccFail true (.str "n1") (.str "n2") ["R"] ["L"] 10).fst =
      .error (.neo4jError "boom") :=
  ⟨rfl, rfl⟩

/-- C9 amended: an engine-originating error raised in the path-enumeration,
projection-creation or WCC phase is surfaced to the caller unchanged (not
wrapped with the phase name), and the engine call of the failing phase appears
exactly once in the trace — no phase is automatically retried. -/
theorem engine_errors_reraised_unchanged (eng : Engine) (conn : Bool) (s t : String)
    (rts nls : List String) (ml : Nat) :
    (∀ e, eng.expandResult = .error e →
      (MinCutFinder.find_min_cut eng conn (.str s) (.str t) rts nls ml).fst = .error e ∧
      ((MinCutFinder.find_min_cut eng conn (.str s) (.str t) rts nls ml).snd.countP
        EngineCall.isExpand) = 1) ∧
    (∀ e paths, eng.expandResult = .ok paths → ¬paths.isEmpty = true →
      ¬rts.isEmpty = true → ¬(get_node_condition "a" nls).isEmpty = true →
      eng.projectResult = .error e →
      (MinCutFinder.find_min_cut eng conn (.str s) (.str t) rts nls ml).fst = .error e ∧
      ((MinCutFinder.find_min_cut eng conn (.str s) (.str t) rts nls ml).snd.countP
        EngineCall.isCreate) = 1) ∧
    (∀ e paths, eng.expandResult = .ok paths → ¬paths.isEmpty = true →
      ¬rts.isEmpty = true → ¬(get_node_condition "a" nls).isEmpty = true →
      eng.projectResult = .ok () → eng.wccResult = .error e →
      (MinCutFinder.find_min_cut eng conn (.str s) (.str t) rts nls ml).fst = .error e ∧
      ((MinCutFinder.find_min_cut eng conn (.str s) (.str t) rts nls ml).snd.countP
        EngineCall.isWcc) = 1) := by
  refine ⟨?_, ?_, ?_⟩
  · intro e he
    simp only [MinCutFinder.find_min_cut, pyStrip, find_edge_disjoint_paths]
    rw [he]
    dsimp only
    refine ⟨rfl, ?_⟩
    cases conn <;> simp [List.countP_append, List.countP_cons, EngineCall.isExpand]
  · intro e paths hp hne hrts hnl hpe
    simp only [MinCutFinder.find_min_cut, pyStrip, find_edge_disjoint_paths]
    rw [hp]
    dsimp only
    rw [if_neg hne]
    simp only [create_gds_projection_without_paths, rel_type_condition,
      drop_gds_projection]
    rw [if_neg hrts]
    dsimp only
    rw [if_neg hnl, hpe]
    dsimp only
    refine ⟨rfl, ?_⟩
    cases conn <;> simp [List.countP_append, List.countP_cons, EngineCall.isCreate]
  · intro e paths hp hne hrts hnl hproj hwe
    simp only [MinCutFinder.find_min_cut, pyStrip, find_edge_disjoint_paths]
    rw [hp]
    dsimp only
    rw [if_neg hne]
    simp only [create_gds_projection_without_paths, rel_type_condition,
      drop_gds_projection]
    rw [if_neg hrts]
    dsimp only
    rw [if_neg hnl, hproj]
    dsimp only
    simp only [run_wcc_algorithm]
    rw [hwe]
    dsimp only
    refine ⟨rfl, ?_⟩
    cases conn <;> simp [List.countP_append, List.countP_cons, EngineCall.isWcc]

/-- C9 amended witness: the projection-creation failure run, through the
amended theorem. -/
theorem engine_errors_reraised_unchanged_witness :
    (MinCutFinder.find_min_cut engProjFail false (.str "n1") (.str "n2") ["R"] ["L"] 10).fst =
      .error (.neo4jError "boom") ∧
    ((MinCutFinder.find_min_cut engProjFail false (.str "n1") (.str "n2") ["R"] ["L"] 10).snd.countP
      EngineCall.isCreate) = 1 :=
  (engine_errors_reraised_unchanged engProjFail false "n1" "n2" ["R"] ["L"] 10).2.1
    (.neo4jError "boom") [⟨[⟨"e1", "n1", "n2", "R"⟩]⟩] rfl (by decide) (by decide)
    (by decide) rfl

end MinCut
